import Mathlib

/-!
Verification development for the SUNDIALS band-block-diagonal (BBD)
preconditioner (kinbbdpre.c) and the generic nonlinear-solver return-code
table (sundials_nonlinearsolver.h).

Modelling conventions:
* `realtype` is modelled by `ℚ` (exact arithmetic); `integertype` loop
  indices are modelled by `ℕ`, and raw `integertype` inputs that the C code
  accepts without a sign check are modelled by `ℤ`.
* N_Vectors are modelled as total functions `ℕ → ℚ`; a band matrix is
  modelled by its value view `ℕ → ℕ → ℚ` (the column-major band storage
  layout of band.h is a memory-layout detail, the claims are about the
  value at a row/column position).
* `gloc(Nlocal, u, g, f_data)` is modelled as a pure function from the
  input vector to the output vector with `f_data` folded in; `gcomm` only
  performs inter-process communication (it stages neighbour data inside
  `f_data`) and has no effect on any locally modelled datum.
-/

namespace KinBBD

abbrev Vec : Type := ℕ → ℚ

abbrev Mat : Type := ℕ → ℕ → ℚ

/-! Return codes of sundials_nonlinearsolver.h (part_000, lines 180-202).
The header defines `SUN_NLS_SUCCESS` twice (both as 0) and defines both
`SUN_NLS_MEM_NULL` and `SUN_NLS_MEM_FAIL` as -1; the commented-out
`#define SUN_NLS_MEM_FAIL -3` is not in effect. The Lean constants below
are the values the C preprocessor leaves in effect at the end of the
header. -/

def SUN_NLS_SUCCESS : ℤ := 0

def SUN_NLS_MEM_NULL : ℤ := -1

def SUN_NLS_ILL_INPUT : ℤ := -2

def SUN_NLS_MEM_FAIL : ℤ := -1

def SUN_NLS_SYS_RECVR : ℤ := 1

def SUN_NLS_SYS_FAIL : ℤ := -8

def SUN_NLS_LSETUP_RECVR : ℤ := 2

def SUN_NLS_LSETUP_FAIL : ℤ := -6

def SUN_NLS_LSOLVE_RECVR : ℤ := 3

def SUN_NLS_LSOLVE_FAIL : ℤ := -7

def SUN_NLS_NCONV_RECVR : ℤ := 4

def SUN_NLS_VECTOROP_ERR : ℤ := -28

/-- The recoverable-condition codes named in the header: system,
linear-setup, linear-solve, and non-convergence. -/
def nlsRecoverableCodes : List ℤ :=
  [SUN_NLS_SYS_RECVR, SUN_NLS_LSETUP_RECVR, SUN_NLS_LSOLVE_RECVR,
   SUN_NLS_NCONV_RECVR]

/-- The fatal-condition codes named in the header: null memory, illegal
input, memory failure, system failure, lsetup failure, lsolve failure,
vector-operation error. -/
def nlsFatalCodes : List ℤ :=
  [SUN_NLS_MEM_NULL, SUN_NLS_ILL_INPUT, SUN_NLS_MEM_FAIL, SUN_NLS_SYS_FAIL,
   SUN_NLS_LSETUP_FAIL, SUN_NLS_LSOLVE_FAIL, SUN_NLS_VECTOROP_ERR]

/-- All named failure-condition codes (recoverable and fatal) of the
header, one entry per distinct name. -/
def nlsNamedFailureCodes : List ℤ := nlsRecoverableCodes ++ nlsFatalCodes

/-! Allocation-level model of KBBDAlloc (part_002, lines 118-196).
KBBDAlloc checks the KINSOL memory pointer and the NVECTOR compatibility,
then performs four allocations (the KBBDData record, the band matrix PP,
the pivot array, the work vector vtemp3). The outcome of each external
check/allocation is an input of the model. -/

/-- Abstract environment for one KBBDAlloc call: whether `kinmem` is
non-NULL, whether the NVECTOR implementation passes the compatibility test
(tag "parallel" and the four required ops present), whether each of the
four internal allocations succeeds, and the value RSqrt(uround) read from
the KINSOL memory. -/
structure AllocEnv where
  kinmemPresent : Bool
  nvecCompatible : Bool
  pdataOk : Bool
  ppOk : Bool
  pivotsOk : Bool
  vtemp3Ok : Bool
  uroundSqrt : ℚ

/-- Allocation-level view of the KBBDData record produced by KBBDAlloc:
the stored half-bandwidths, which components were actually allocated, the
resolved relative increment, the stored local size, the work-space sizes
and the gloc-evaluation counter. -/
structure KBBDAllocData where
  ml : ℤ
  mu : ℤ
  ppAllocated : Bool
  pivotsAllocated : Bool
  vtemp3Allocated : Bool
  rel_uu : ℚ
  n_local : ℤ
  rpwsize : ℤ
  ipwsize : ℤ
  nge : ℤ

/-- Model of KBBDAlloc (part_002, lines 118-196). The control flow follows
the source line by line: NULL kinmem and incompatible NVECTOR return NULL;
a failed record, matrix, or vtemp3 allocation returns NULL. After the
pivot allocation the source tests `pdata->PP == NULL` a second time
(line 163) - not `pdata->pivots` - and PP was already checked, so a failed
pivot allocation is not detected and the function proceeds. No bandwidth
parameter is validated anywhere. -/
def KBBDAlloc (Nlocal mu ml : ℤ) (dq_rel_uu : ℚ) (env : AllocEnv) :
    Option KBBDAllocData :=
  if env.kinmemPresent = false then none
  else if env.nvecCompatible = false then none
  else if env.pdataOk = false then none
  else if env.ppOk = false then none
  else if env.ppOk = false then none
  else if env.vtemp3Ok = false then none
  else
    some { ml := ml
           mu := mu
           ppAllocated := env.ppOk
           pivotsAllocated := env.pivotsOk
           vtemp3Allocated := env.vtemp3Ok
           rel_uu := if 0 < dq_rel_uu then dq_rel_uu else env.uroundSqrt
           n_local := Nlocal
           rpwsize := Nlocal * (2 * mu + ml + 1)
           ipwsize := Nlocal
           nge := 0 }

/-! Computation-level model of the preconditioner rebuild
(KBBDDQJac / KBBDPrecon / KBBDPSol, part_002 lines 272-435). -/

/-- Computation-level view of the KBBDData record, holding the fields
that KBBDPrecon, KBBDPSol and KBBDDQJac actually read and write: the
half-bandwidths, the local function, the resolved relative increment, the
local size, the gloc-evaluation counter, the band matrix PP and the pivot
array. The difference-quotient loops of KBBDDQJac do not terminate unless
`ml + mu + 1` is positive, so the bandwidths are carried as naturals here
(the claims about the rebuild all assume nonnegative bandwidths). -/
structure KBBDData where
  mu : ℕ
  ml : ℕ
  glocF : Vec → Vec
  rel_uu : ℚ
  n_local : ℕ
  nge : ℕ
  PP : Mat
  pivots : List ℕ

/-- Parameters consumed by one KBBDDQJac call: the local size, the
half-bandwidths, the relative increment, the local function, the current
iterate `uu` and the scaling vector `uscale`. -/
structure DQParams where
  Nlocal : ℕ
  mu : ℕ
  ml : ℕ
  rel_uu : ℚ
  glocF : Vec → Vec
  u : Vec
  usc : Vec

/-- The DQParams that KBBDPrecon passes to KBBDDQJac. -/
def dqParamsOf (pd : KBBDData) (uu uscale : Vec) : DQParams :=
  { Nlocal := pd.n_local, mu := pd.mu, ml := pd.ml, rel_uu := pd.rel_uu
    glocF := pd.glocF, u := uu, usc := uscale }

/-- Bandwidth of the difference quotient loops: `width = ml + mu + 1`
(part_002 line 408). -/
def width (p : DQParams) : ℕ := p.ml + p.mu + 1

/-- Number of column groups: `ngroups = MIN(width, Nlocal)` (line 409). -/
def ngroups (p : DQParams) : ℕ := min (width p) p.Nlocal

/-- The increment of unknown j:
`inc = rel_uu * MAX(ABS(udata[j]), ONE/uscdata[j])` (lines 416 and 427;
the two occurrences are the same expression). -/
def inc (p : DQParams) (j : ℕ) : ℚ :=
  p.rel_uu * max |p.u j| (1 / p.usc j)

/-- The baseline vector gu = gloc(uu) (line 405). -/
def glocBase (p : DQParams) : Vec := p.glocF p.u

/-- The perturbation loop of group g (lines 415-418): every `j` of the
group - the indices `j = g-1, g-1+width, ...` below Nlocal, i.e. the
`j < Nlocal` with `j % width = g - 1` since `g - 1 < width` for every
group number - gets `utemp[j] += inc`. -/
def perturbGroup (p : DQParams) (ut : Vec) (g : ℕ) : Vec :=
  fun j => if j < p.Nlocal ∧ j % width p = g - 1 then ut j + inc p j else ut j

/-- The restore assignment `utempdata[j] = udata[j]` of line 425, applied
to every index of group g. -/
def restoreGroup (p : DQParams) (ut : Vec) (g : ℕ) : Vec :=
  fun j => if j < p.Nlocal ∧ j % width p = g - 1 then p.u j else ut j

/-- Pointwise update of one matrix entry, the value view of
`BAND_COL_ELEM(col_j,i,j) = v`. -/
def updEntry (M : Mat) (i j : ℕ) (v : ℚ) : Mat :=
  fun r c => if r = i ∧ c = j then v else M r c

/-- The inner row loop for one column j (lines 426-432): for
`i1 = MAX(0,j-mu)` (truncated ℕ subtraction) up to
`i2 = MIN(j+ml, Nlocal-1)`, store `inc_inv * (gtempdata[i] - gudata[i])`
at position (i, j). -/
def writeQuotients (p : DQParams) (gtemp : Vec) (J : Mat) (j : ℕ) : Mat :=
  (List.range' (j - p.mu) (min (j + p.ml) (p.Nlocal - 1) + 1 - (j - p.mu))).foldl
    (fun M i => updEntry M i j ((1 / inc p j) * (gtemp i - glocBase p i))) J

/-- The columns processed in group g: `j = g-1, g-1+width, ...` below
Nlocal (the loop of line 424). -/
def groupCols (p : DQParams) (g : ℕ) : List ℕ :=
  (List.range p.Nlocal).filter (fun j => j % width p = g - 1)

/-- State carried across the group loop of KBBDDQJac: the matrix being
filled, the work vector utemp, and the running count of gloc calls. -/
structure DQState where
  J : Mat
  utemp : Vec
  calls : ℕ

/-- One iteration of the group loop (lines 412-434): perturb the group in
utemp, evaluate gloc on the perturbed vector, restore utemp, and load the
difference quotients of every column of the group. -/
def dqGroupStep (p : DQParams) (s : DQState) (g : ℕ) : DQState :=
  let ut1 := perturbGroup p s.utemp g
  let gtemp := p.glocF ut1
  { J := (groupCols p g).foldl (writeQuotients p gtemp) s.J
    utemp := restoreGroup p ut1 g
    calls := s.calls + 1 }

/-- Model of KBBDDQJac (part_002, lines 382-435): load utemp with uu,
call gcomm (communication only, no locally modelled effect) and gloc once
for the baseline, then run the group loop for `group = 1..ngroups`. The
`calls` field counts the gloc invocations. -/
def KBBDDQJac (p : DQParams) (J0 : Mat) : DQState :=
  (List.range' 1 (ngroups p)).foldl (dqGroupStep p)
    { J := J0, utemp := p.u, calls := 1 }

/-- BandZero (band.h): clears every stored entry of the matrix; the result
does not depend on the previous contents. -/
def BandZero (_A : Mat) : Mat := fun _ _ => 0

/-- Result of the band LU factorization: the in-place LU factors, the
pivot rows chosen, and the return code (0 on success, the 1-based column
of the offending zero pivot on singularity). -/
structure FactorResult where
  lu : Mat
  piv : List ℕ
  code : ℕ

/-- Modelled from the spec: BandFactor lives in band.c, which is not among
the provided sources. Row search of partial pivoting inside column k,
restricted to the rows `k..MIN(k+ml, N-1)` of the band. -/
def pivotRow (A : Mat) (k last : ℕ) : ℕ :=
  (List.range' k (last + 1 - k)).foldl
    (fun best i => if |A best k| < |A i k| then i else best) k

/-- Row interchange on the value view of the matrix. -/
def swapRows (A : Mat) (r s : ℕ) : Mat :=
  fun i j => if i = r then A s j else if i = s then A r j else A i j

/-- Modelled from the spec: one Gaussian elimination step of BandFactor at
column k, after the pivot interchange. Rows `k+1..MIN(k+ml,N-1)` are
reduced; fill is confined to columns `k..MIN(k+mu+ml,N-1)` (the reserved
extra superdiagonals of the band store); the multiplier is stored in
place in column k. -/
def elimColumn (N mu ml k : ℕ) (A : Mat) : Mat :=
  (List.range' (k + 1) (min (k + ml) (N - 1) - k)).foldl
    (fun M i =>
      let m := M i k / M k k
      fun r c =>
        if r = i then
          if c = k then m
          else if k + 1 ≤ c ∧ c ≤ min (k + mu + ml) (N - 1) then
            M i c - m * M k c
          else M i c
        else M r c)
    A

/-- Modelled from the spec: one column of the BandFactor loop. On the
first zero pivot (after searching the sub-band of the column) the 1-based
column index is recorded and the factorization stops updating. -/
def bandFactorStep (N mu ml : ℕ) (st : Mat × List ℕ × ℕ) (k : ℕ) :
    Mat × List ℕ × ℕ :=
  if st.2.2 ≠ 0 then st
  else
    let p := pivotRow st.1 k (min (k + ml) (N - 1))
    if st.1 p k = 0 then (st.1, st.2.1, k + 1)
    else (elimColumn N mu ml k (swapRows st.1 k p), st.2.1 ++ [p], 0)

/-- Modelled from the spec: BandFactor (band.c, not among the provided
sources) - in-place banded LU with partial pivoting; returns 0 on
success, otherwise the 1-based index of the column where a zero pivot was
met. -/
def bandFactor (N mu ml : ℕ) (A : Mat) : FactorResult :=
  let r := (List.range N).foldl (bandFactorStep N mu ml) (A, ([], 0))
  { lu := r.1, piv := r.2.1, code := r.2.2 }

/-- Modelled from the spec: the forward-elimination half of BandBacksolve,
applying the recorded row interchanges and the stored multipliers. -/
def backsolveForward (N ml : ℕ) (lu : Mat) (piv : List ℕ) (b : Vec) : Vec :=
  (List.range N).foldl
    (fun v k =>
      let p := piv.getD k k
      let v1 : Vec := fun i => if i = k then v p else if i = p then v k else v i
      (List.range' (k + 1) (min (k + ml) (N - 1) - k)).foldl
        (fun w i => fun r => if r = i then w i - lu i k * w k else w r) v1)
    b

/-- Modelled from the spec: the back-substitution half of BandBacksolve on
the upper factor, walking the columns from last to first. -/
def backsolveBackward (N mu ml : ℕ) (lu : Mat) (b : Vec) : Vec :=
  (List.range N).foldl
    (fun v k0 =>
      let k := N - 1 - k0
      let s := ((List.range' (k + 1) (min (k + mu + ml) (N - 1) - k)).map
        (fun j => lu k j * v j)).sum
      fun r => if r = k then (v k - s) / lu k k else v r)
    b

/-- Modelled from the spec: BandBacksolve (band.c, not among the provided
sources) - forward elimination with the pivot sequence, then back
substitution, in place on the right-hand side. -/
def bandBacksolve (N mu ml : ℕ) (lu : Mat) (piv : List ℕ) (b : Vec) : Vec :=
  backsolveBackward N mu ml lu (backsolveForward N ml lu piv b)

/-- Model of KBBDPrecon (part_002, lines 272-299): zero PP, rebuild it
with KBBDDQJac, add `1 + MIN(ml + mu + 1, Nlocal)` to nge, factor PP in
place, and return 1 if BandFactor reported a positive code, else 0. -/
def KBBDPrecon (pd : KBBDData) (uu uscale : Vec) : KBBDData × ℤ :=
  let dq := KBBDDQJac (dqParamsOf pd uu uscale) (BandZero pd.PP)
  let fr := bandFactor pd.n_local pd.mu pd.ml dq.J
  ({ pd with PP := fr.lu, pivots := fr.piv
             nge := pd.nge + (1 + min (pd.ml + pd.mu + 1) pd.n_local) },
   if 0 < fr.code then 1 else 0)

/-- Model of KBBDPSol (part_002, lines 348-365): run BandBacksolve on the
incoming vector using the stored PP and pivots, and return 0. There is no
state field consulted and no validation performed. -/
def KBBDPSol (pd : KBBDData) (vtem : Vec) : Vec × ℤ :=
  (bandBacksolve pd.n_local pd.mu pd.ml pd.PP pd.pivots vtem, 0)

/-! Characterization lemmas for the difference-quotient fill. -/

/-- The value stored at position (r, c) by the difference-quotient fill:
the quotient of the c-column group's perturbed evaluation against the
baseline, scaled by the inverse increment. -/
def quotVal (p : DQParams) (r c : ℕ) : ℚ :=
  (1 / inc p c) *
    (p.glocF (perturbGroup p p.u (c % width p + 1)) r - glocBase p r)

/-! Concrete instances used by counterexamples and witnesses. -/

/-- An allocation environment in which every check passes and every
allocation succeeds. -/
def envAllOk : AllocEnv :=
  { kinmemPresent := true, nvecCompatible := true, pdataOk := true,
    ppOk := true, pivotsOk := true, vtemp3Ok := true, uroundSqrt := 1 }

/-- An allocation environment in which only the pivot-array allocation
(BandAllocPiv) fails. -/
def envPivotsFail : AllocEnv :=
  { kinmemPresent := true, nvecCompatible := true, pdataOk := true,
    ppOk := true, pivotsOk := false, vtemp3Ok := true, uroundSqrt := 1 }

/-- A freshly allocated driver state on which precondition has never been
run: zero matrix, empty pivot array, zero evaluation count. -/
def c3FreshData : KBBDData :=
  { mu := 0, ml := 0, glocF := fun v => v, rel_uu := 1, n_local := 1,
    nge := 0, PP := fun _ _ => 0, pivots := [] }

/-- Difference-quotient parameters with a zero iterate component and a
zero scaling component at index 0. -/
def c5Params : DQParams :=
  { Nlocal := 1, mu := 0, ml := 0, rel_uu := 1, glocF := fun v => v,
    u := fun _ => 0, usc := fun _ => 0 }

/-- Difference-quotient parameters with a zero scaling component but a
nonzero iterate component at index 0. -/
def c5WParams : DQParams :=
  { Nlocal := 1, mu := 0, ml := 0, rel_uu := 1, glocF := fun v => v,
    u := fun _ => 2, usc := fun _ => 0 }

/-- A small concrete driver state: local size 4, half-bandwidths 1. -/
def pdFour : KBBDData :=
  { mu := 1, ml := 1, glocF := fun v => v, rel_uu := 1, n_local := 4,
    nge := 0, PP := fun _ _ => 0, pivots := [] }

/-- A driver state agreeing with pdFour on every configuration field but
holding different matrix contents, pivots and counter. -/
def pdFourDirty : KBBDData :=
  { pdFour with PP := fun _ _ => 5, pivots := [3], nge := 7 }

/-- Small concrete difference-quotient parameters: local size 2,
half-bandwidths 1, constant-one iterate and scaling. -/
def p2W : DQParams :=
  { Nlocal := 2, mu := 1, ml := 1, rel_uu := 1, glocF := fun v => v,
    u := fun _ => 1, usc := fun _ => 1 }

lemma foldl_updEntry_eq (j : ℕ) (f : ℕ → ℚ) (L : List ℕ) :
    ∀ (J : Mat) (r c : ℕ),
      (L.foldl (fun M i => updEntry M i j (f i)) J) r c =
        if c = j ∧ r ∈ L then f r else J r c := by
  induction L with
  | nil => intro J r c; simp
  | cons a t ih =>
      intro J r c
      simp only [List.foldl_cons]
      rw [ih]
      by_cases hc : c = j
      · by_cases hrt : r ∈ t
        · simp [hc, hrt]
        · by_cases hra : r = a
          · simp [hc, hrt, hra, updEntry]
          · simp [hc, hrt, hra, updEntry, List.mem_cons]
      · simp [hc, updEntry]

lemma writeQuotients_eq (p : DQParams) (gtemp : Vec) (J : Mat) (j : ℕ)
    (hj : j < p.Nlocal) (r c : ℕ) :
    writeQuotients p gtemp J j r c =
      if c = j ∧ j - p.mu ≤ r ∧ r ≤ min (j + p.ml) (p.Nlocal - 1) then
        (1 / inc p j) * (gtemp r - glocBase p r)
      else J r c := by
  unfold writeQuotients
  rw [foldl_updEntry_eq]
  have hmem : ∀ x : ℕ,
      x ∈ List.range' (j - p.mu)
        (min (j + p.ml) (p.Nlocal - 1) + 1 - (j - p.mu)) ↔
      (j - p.mu ≤ x ∧ x ≤ min (j + p.ml) (p.Nlocal - 1)) := by
    intro x
    rw [List.mem_range'_1]
    omega
  by_cases h : c = j ∧ j - p.mu ≤ r ∧ r ≤ min (j + p.ml) (p.Nlocal - 1)
  · rw [if_pos ⟨h.1, (hmem r).2 h.2⟩, if_pos h]
  · rw [if_neg, if_neg h]
    intro hcon
    exact h ⟨hcon.1, (hmem r).1 hcon.2⟩

lemma mem_groupCols (p : DQParams) (g c : ℕ) :
    c ∈ groupCols p g ↔ c < p.Nlocal ∧ c % width p = g - 1 := by
  unfold groupCols
  simp [List.mem_filter, List.mem_range]

lemma foldl_writeQuotients_eq (p : DQParams) (gtemp : Vec) (cols : List ℕ) :
    (∀ x ∈ cols, x < p.Nlocal) → ∀ (J : Mat) (r c : ℕ),
      (cols.foldl (writeQuotients p gtemp) J) r c =
        if c ∈ cols ∧ c - p.mu ≤ r ∧ r ≤ min (c + p.ml) (p.Nlocal - 1) then
          (1 / inc p c) * (gtemp r - glocBase p r)
        else J r c := by
  induction cols with
  | nil => intro _ J r c; simp
  | cons a t ih =>
      intro hall J r c
      simp only [List.foldl_cons]
      rw [ih (fun x hx => hall x (List.mem_cons_of_mem a hx))]
      by_cases hct : c ∈ t ∧ c - p.mu ≤ r ∧ r ≤ min (c + p.ml) (p.Nlocal - 1)
      · rw [if_pos hct, if_pos ⟨List.mem_cons_of_mem a hct.1, hct.2⟩]
      · rw [if_neg hct,
          writeQuotients_eq p gtemp J a (hall a (List.mem_cons_self a t)) r c]
        by_cases hca : c = a ∧ a - p.mu ≤ r ∧ r ≤ min (a + p.ml) (p.Nlocal - 1)
        · obtain ⟨h1, h2⟩ := hca
          subst h1
          rw [if_pos ⟨rfl, h2⟩, if_pos ⟨List.mem_cons_self _ t, h2⟩]
        · rw [if_neg hca, if_neg]
          intro hcon
          rcases List.mem_cons.1 hcon.1 with h | h
          · exact hca ⟨h, h ▸ hcon.2⟩
          · exact hct ⟨h, hcon.2⟩

lemma dqGroupStep_J (p : DQParams) (s : DQState) (g : ℕ) (r c : ℕ) :
    (dqGroupStep p s g).J r c =
      if (c < p.Nlocal ∧ c % width p = g - 1) ∧ c - p.mu ≤ r ∧
          r ≤ min (c + p.ml) (p.Nlocal - 1) then
        (1 / inc p c) *
          (p.glocF (perturbGroup p s.utemp g) r - glocBase p r)
      else s.J r c := by
  have hJ : (dqGroupStep p s g).J =
      (groupCols p g).foldl
        (writeQuotients p (p.glocF (perturbGroup p s.utemp g))) s.J := rfl
  rw [hJ, foldl_writeQuotients_eq p _ (groupCols p g)
    (fun x hx => ((mem_groupCols p g x).1 hx).1) s.J r c]
  by_cases h : (c < p.Nlocal ∧ c % width p = g - 1) ∧ c - p.mu ≤ r ∧
      r ≤ min (c + p.ml) (p.Nlocal - 1)
  · rw [if_pos ⟨(mem_groupCols p g c).2 h.1, h.2⟩, if_pos h]
  · rw [if_neg, if_neg h]
    intro hcon
    exact h ⟨(mem_groupCols p g c).1 hcon.1, hcon.2⟩

lemma dqGroupStep_utemp (p : DQParams) (s : DQState) (g : ℕ)
    (hu : s.utemp = p.u) : (dqGroupStep p s g).utemp = p.u := by
  funext j
  have hut : (dqGroupStep p s g).utemp =
      restoreGroup p (perturbGroup p s.utemp g) g := rfl
  rw [hut, hu]
  unfold restoreGroup perturbGroup
  by_cases h : j < p.Nlocal ∧ j % width p = g - 1 <;> simp [h]

lemma dqGroupStep_calls (p : DQParams) (s : DQState) (g : ℕ) :
    (dqGroupStep p s g).calls = s.calls + 1 := rfl

lemma foldl_dqGroupStep (p : DQParams) (gl : List ℕ) :
    (∀ g ∈ gl, 1 ≤ g) → ∀ (s : DQState), s.utemp = p.u →
      (gl.foldl (dqGroupStep p) s).utemp = p.u ∧
      (gl.foldl (dqGroupStep p) s).calls = s.calls + gl.length ∧
      ∀ r c, (gl.foldl (dqGroupStep p) s).J r c =
        if (∃ g ∈ gl, c < p.Nlocal ∧ c % width p = g - 1) ∧
            c - p.mu ≤ r ∧ r ≤ min (c + p.ml) (p.Nlocal - 1) then
          quotVal p r c
        else s.J r c := by
  induction gl with
  | nil =>
      intro _ s hu
      refine ⟨hu, by simp, ?_⟩
      intro r c
      simp
  | cons g t ih =>
      intro hall s hu
      simp only [List.foldl_cons]
      have hg1 : 1 ≤ g := hall g (List.mem_cons_self g t)
      have hs1u : (dqGroupStep p s g).utemp = p.u := dqGroupStep_utemp p s g hu
      obtain ⟨ihu, ihc, ihJ⟩ :=
        ih (fun x hx => hall x (List.mem_cons_of_mem g hx)) (dqGroupStep p s g) hs1u
      refine ⟨ihu, by rw [ihc, dqGroupStep_calls]; simp; omega, ?_⟩
      intro r c
      rw [ihJ r c, dqGroupStep_J p s g r c, hu]
      by_cases ht : (∃ g' ∈ t, c < p.Nlocal ∧ c % width p = g' - 1) ∧
          c - p.mu ≤ r ∧ r ≤ min (c + p.ml) (p.Nlocal - 1)
      · obtain ⟨⟨g', hg'm, hcg'⟩, hr2⟩ := ht
        rw [if_pos ⟨⟨g', hg'm, hcg'⟩, hr2⟩,
          if_pos ⟨⟨g', List.mem_cons_of_mem g hg'm, hcg'⟩, hr2⟩]
      · rw [if_neg ht]
        by_cases hgc : (c < p.Nlocal ∧ c % width p = g - 1) ∧ c - p.mu ≤ r ∧
            r ≤ min (c + p.ml) (p.Nlocal - 1)
        · obtain ⟨⟨hcN, hcm⟩, hr2⟩ := hgc
          rw [if_pos ⟨⟨hcN, hcm⟩, hr2⟩,
            if_pos ⟨⟨g, List.mem_cons_self g t, hcN, hcm⟩, hr2⟩]
          unfold quotVal
          rw [hcm, Nat.sub_add_cancel hg1]
        · rw [if_neg hgc, if_neg]
          intro hcon
          obtain ⟨⟨g', hg'm, hcg'⟩, hr2⟩ := hcon
          rcases List.mem_cons.1 hg'm with h | h
          · exact hgc ⟨h ▸ hcg', hr2⟩
          · exact ht ⟨⟨g', h, hcg'⟩, hr2⟩

lemma KBBDDQJac_spec (p : DQParams) (J0 : Mat) :
    (KBBDDQJac p J0).utemp = p.u ∧
    (KBBDDQJac p J0).calls = 1 + ngroups p ∧
    ∀ r c, (KBBDDQJac p J0).J r c =
      if (∃ g ∈ List.range' 1 (ngroups p), c < p.Nlocal ∧
            c % width p = g - 1) ∧
          c - p.mu ≤ r ∧ r ≤ min (c + p.ml) (p.Nlocal - 1) then
        quotVal p r c
      else J0 r c := by
  have h := foldl_dqGroupStep p (List.range' 1 (ngroups p))
    (fun g hg => (List.mem_range'_1.1 hg).1)
    { J := J0, utemp := p.u, calls := 1 } rfl
  simpa [KBBDDQJac, List.length_range'] using h

lemma groupIdx_mem (p : DQParams) (c : ℕ) (hc : c < p.Nlocal) :
    c % width p + 1 ∈ List.range' 1 (ngroups p) := by
  rw [List.mem_range'_1]
  have hw : 0 < width p := by unfold width; omega
  have h1 : c % width p < width p := Nat.mod_lt _ hw
  refine ⟨by omega, ?_⟩
  unfold ngroups
  rcases le_or_lt (width p) p.Nlocal with h | h
  · rw [min_eq_left h]; omega
  · rw [min_eq_right (le_of_lt h), Nat.mod_eq_of_lt (lt_trans hc h)]
    omega

lemma exists_group (p : DQParams) (c : ℕ) (hc : c < p.Nlocal) :
    ∃ g ∈ List.range' 1 (ngroups p), c < p.Nlocal ∧ c % width p = g - 1 :=
  ⟨c % width p + 1, groupIdx_mem p c hc, hc, by simp⟩

lemma unique_group (p : DQParams) (c : ℕ) (hc : c < p.Nlocal) :
    ∃! g, g ∈ List.range' 1 (ngroups p) ∧ c % width p = g - 1 := by
  refine ⟨c % width p + 1, ⟨groupIdx_mem p c hc, by simp⟩, ?_⟩
  intro g' hg'
  have h1 : 1 ≤ g' := (List.mem_range'_1.1 hg'.1).1
  have h2 : c % width p = g' - 1 := hg'.2
  omega

/-! Claim theorems. -/

/-- Claim C8, counterexample: the return-code table of the nonlinear
solver header does NOT assign distinct values to all distinct named
failure conditions - SUN_NLS_MEM_NULL and SUN_NLS_MEM_FAIL are both -1 -
so the claimed conjunction (success 0, recoverables positive, fatals
negative, distinct names distinct values) is false. -/
theorem c8_counterexample :
    ¬ (SUN_NLS_SUCCESS = 0 ∧ (∀ c ∈ nlsRecoverableCodes, 0 < c) ∧
        (∀ c ∈ nlsFatalCodes, c < 0) ∧
        List.Pairwise (fun a b => a ≠ b) nlsNamedFailureCodes) := by
  decide

/-- Claim C8, amended: success is 0, every named recoverable code is
positive, every named fatal code is negative, and the named codes are
pairwise distinct except that SUN_NLS_MEM_NULL and SUN_NLS_MEM_FAIL share
the value -1. -/
theorem c8_code_table :
    SUN_NLS_SUCCESS = 0 ∧
    (∀ c ∈ nlsRecoverableCodes, 0 < c) ∧
    (∀ c ∈ nlsFatalCodes, c < 0) ∧
    SUN_NLS_MEM_NULL = SUN_NLS_MEM_FAIL ∧
    List.Pairwise (fun a b => a ≠ b)
      [SUN_NLS_SYS_RECVR, SUN_NLS_LSETUP_RECVR, SUN_NLS_LSOLVE_RECVR,
       SUN_NLS_NCONV_RECVR, SUN_NLS_MEM_NULL, SUN_NLS_ILL_INPUT,
       SUN_NLS_SYS_FAIL, SUN_NLS_LSETUP_FAIL, SUN_NLS_LSOLVE_FAIL,
       SUN_NLS_VECTOROP_ERR] := by
  decide

/-- Claim C4, counterexample: KBBDAlloc accepts mu = -1, ml = -1 and
returns a usable (non-NULL) handle storing the negative bandwidth, so it
does not validate its bandwidth parameters and does not fail with an
illegal-input condition on them. -/
theorem c4_counterexample :
    (KBBDAlloc 5 (-1) (-1) 0 envAllOk).isSome = true ∧
    (KBBDAlloc 5 (-1) (-1) 0 envAllOk).map (fun r => r.mu) = some (-1) := by
  constructor <;> rfl

/-- Claim C4, amended: KBBDAlloc performs no bandwidth validation at all
(this interface has no separate difference-quotient bandwidths, and mu,
ml are stored unchecked); it returns NULL exactly when the KINSOL memory
is NULL, the NVECTOR implementation is incompatible, or the record,
band-matrix, or work-vector allocation fails. -/
theorem c4_no_validation (Nl mu0 ml0 : ℤ) (dq : ℚ) (env : AllocEnv) :
    (KBBDAlloc Nl mu0 ml0 dq env = none ↔
      env.kinmemPresent = false ∨ env.nvecCompatible = false ∨
      env.pdataOk = false ∨ env.ppOk = false ∨ env.vtemp3Ok = false) ∧
    (KBBDAlloc Nl mu0 ml0 dq env).map (fun r => (r.mu, r.ml)) =
      (KBBDAlloc Nl mu0 ml0 dq env).map (fun _ => (mu0, ml0)) := by
  obtain ⟨k, n, pda, pp, pv, v3, u⟩ := env
  cases k <;> cases n <;> cases pda <;> cases pp <;> cases v3 <;>
    simp [KBBDAlloc]

/-- Claim C10: when BandAllocPiv fails and every other allocation
succeeds, KBBDAlloc returns a non-NULL handle whose pivot array is
missing, because line 163 of part_002 re-tests pdata->PP instead of
pdata->pivots. This contradicts the evident intent of the source (the
cleanup branch under that test frees PP and the record, which only makes
sense on a pivot-allocation failure). -/
theorem c10_missing_pivots :
    (KBBDAlloc 5 1 1 0 envPivotsFail).map (fun r => r.pivotsAllocated) =
      some false := by
  rfl

/-- Claim C3, counterexample: KBBDPSol invoked on a freshly allocated
driver state with no prior successful precondition returns 0 (success)
and performs the backsolve on the absent factors, rather than failing
with an invalid-state condition. -/
theorem c3_counterexample :
    (KBBDPSol c3FreshData (fun _ => 1)).2 = 0 ∧
    (KBBDPSol c3FreshData (fun _ => 1)).1 =
      bandBacksolve 1 0 0 (fun _ _ => 0) [] (fun _ => 1) := by
  constructor <;> rfl

/-- Claim C3, amended: KBBDPSol keeps no driver state and performs no
validation; for every driver state and right-hand side it unconditionally
applies BandBacksolve to the stored matrix and pivots and returns 0. -/
theorem c3_no_state_check (pd : KBBDData) (vtem : Vec) :
    (KBBDPSol pd vtem).2 = 0 ∧
    (KBBDPSol pd vtem).1 =
      bandBacksolve pd.n_local pd.mu pd.ml pd.PP pd.pivots vtem :=
  ⟨rfl, rfl⟩

/-- Claim C5, counterexample: with a zero scaling component and a zero
iterate component the increment evaluates to zero, not to the claimed
default relativeIncrement (= 1 here), so the increment is not always
nonzero: the code has no fallback branch. -/
theorem c5_counterexample :
    inc c5Params 0 = 0 ∧ c5Params.rel_uu = 1 := by
  constructor
  · show (1 : ℚ) * max |(0 : ℚ)| (1 / 0) = 0
    norm_num
  · rfl

/-- Claim C5, amended: the increment is computed unconditionally as
relativeIncrement * max(|y_j|, 1/scale_j) with no defaulting branch; in
the exact-arithmetic model a zero scale component degenerates the second
argument of max, so the increment equals relativeIncrement * |y_j|, and
the increment is nonzero whenever relativeIncrement is positive and y_j
is nonzero or scale_j is positive. -/
theorem c5_increment (p : DQParams) (j : ℕ) (h : 0 < p.rel_uu) :
    (p.usc j = 0 → inc p j = p.rel_uu * |p.u j|) ∧
    ((p.u j ≠ 0 ∨ 0 < p.usc j) → inc p j ≠ 0) := by
  constructor
  · intro h0
    unfold inc
    rw [h0, div_zero, max_eq_left (abs_nonneg _)]
  · intro hcase
    unfold inc
    have hmax : 0 < max |p.u j| (1 / p.usc j) := by
      rcases hcase with hu | hs
      · exact lt_of_lt_of_le (abs_pos.2 hu) (le_max_left _ _)
      · exact lt_of_lt_of_le (one_div_pos.2 hs) (le_max_right _ _)
    exact ne_of_gt (mul_pos h hmax)

/-- Claim C5, witness: the amended increment theorem applied at the
concrete parameters c5WParams and index 0. -/
theorem c5_witness :
    0 < c5WParams.rel_uu ∧
    ((c5WParams.usc 0 = 0 →
        inc c5WParams 0 = c5WParams.rel_uu * |c5WParams.u 0|) ∧
      ((c5WParams.u 0 ≠ 0 ∨ 0 < c5WParams.usc 0) → inc c5WParams 0 ≠ 0)) :=
  ⟨by decide, c5_increment c5WParams 0 (by decide)⟩

/-- Claim C1: one preconditioner rebuild partitions the Nlocal unknowns
into exactly min(mu+ml+1, Nlocal) groups by index modulo mu+ml+1 (each
index below Nlocal belongs to exactly one group number), calls gloc
exactly min(mu+ml+1, Nlocal) + 1 times (one baseline plus one per group),
and KBBDPrecon increments nge by exactly that count. -/
theorem c1_grouping (pd : KBBDData) (uu uscale : Vec)
    (hmu : pd.mu < pd.n_local) (hml : pd.ml < pd.n_local) :
    ngroups (dqParamsOf pd uu uscale) = min (pd.mu + pd.ml + 1) pd.n_local ∧
    (∀ j, j < pd.n_local →
      ∃! g, g ∈ List.range' 1 (ngroups (dqParamsOf pd uu uscale)) ∧
        j % (pd.mu + pd.ml + 1) = g - 1) ∧
    (KBBDDQJac (dqParamsOf pd uu uscale) (BandZero pd.PP)).calls =
      min (pd.mu + pd.ml + 1) pd.n_local + 1 ∧
    (KBBDPrecon pd uu uscale).1.nge =
      pd.nge + (min (pd.mu + pd.ml + 1) pd.n_local + 1) := by
  have hw : width (dqParamsOf pd uu uscale) = pd.mu + pd.ml + 1 := by
    simp [width, dqParamsOf]
    omega
  have hn : (dqParamsOf pd uu uscale).Nlocal = pd.n_local := rfl
  have hng : ngroups (dqParamsOf pd uu uscale) =
      min (pd.mu + pd.ml + 1) pd.n_local := by
    unfold ngroups
    rw [hw, hn]
  refine ⟨hng, ?_, ?_, ?_⟩
  · intro j hj
    rw [← hw]
    exact unique_group (dqParamsOf pd uu uscale) j (by rw [hn]; exact hj)
  · rw [(KBBDDQJac_spec (dqParamsOf pd uu uscale) (BandZero pd.PP)).2.1, hng]
    omega
  · show pd.nge + (1 + min (pd.ml + pd.mu + 1) pd.n_local) = _
    omega

/-- Claim C1, witness: the grouping theorem applied at the concrete
driver state pdFour (local size 4, half-bandwidths 1). -/
theorem c1_witness :
    pdFour.mu < pdFour.n_local ∧ pdFour.ml < pdFour.n_local ∧
    (ngroups (dqParamsOf pdFour (fun _ => 1) (fun _ => 1)) =
        min (pdFour.mu + pdFour.ml + 1) pdFour.n_local ∧
      (∀ j, j < pdFour.n_local →
        ∃! g, g ∈ List.range' 1
            (ngroups (dqParamsOf pdFour (fun _ => 1) (fun _ => 1))) ∧
          j % (pdFour.mu + pdFour.ml + 1) = g - 1) ∧
      (KBBDDQJac (dqParamsOf pdFour (fun _ => 1) (fun _ => 1))
          (BandZero pdFour.PP)).calls =
        min (pdFour.mu + pdFour.ml + 1) pdFour.n_local + 1 ∧
      (KBBDPrecon pdFour (fun _ => 1) (fun _ => 1)).1.nge =
        pdFour.nge + (min (pdFour.mu + pdFour.ml + 1) pdFour.n_local + 1)) :=
  ⟨by decide, by decide,
    c1_grouping pdFour (fun _ => 1) (fun _ => 1) (by decide) (by decide)⟩

/-- Claim C2: after the difference-quotient fill, for every perturbed
index j and every row i in the clipped band range
[max(0, j-mu), min(j+ml, Nlocal-1)] (truncated ℕ subtraction realizes the
max with 0), the matrix entry at (i, j) equals
(G_perturbed[i] - G_base[i]) / inc_j, where G_perturbed is gloc evaluated
on the perturbation of j's group and
inc_j = relativeIncrement * max(|y_j|, 1/scale_j); entries outside that
range in column j are not written and keep their incoming value. -/
theorem c2_band_entries (p : DQParams) (J0 : Mat) (i j : ℕ)
    (hj : j < p.Nlocal) :
    (j - p.mu ≤ i ∧ i ≤ min (j + p.ml) (p.Nlocal - 1) →
      (KBBDDQJac p J0).J i j =
        (p.glocF (perturbGroup p p.u (j % width p + 1)) i - p.glocF p.u i) /
          inc p j) ∧
    (¬ (j - p.mu ≤ i ∧ i ≤ min (j + p.ml) (p.Nlocal - 1)) →
      (KBBDDQJac p J0).J i j = J0 i j) ∧
    inc p j = p.rel_uu * max |p.u j| (1 / p.usc j) := by
  obtain ⟨-, -, hJ⟩ := KBBDDQJac_spec p J0
  refine ⟨?_, ?_, rfl⟩
  · intro hrange
    rw [hJ i j, if_pos ⟨exists_group p j hj, hrange⟩]
    unfold quotVal glocBase
    rw [one_div_mul_eq_div]
  · intro hrange
    rw [hJ i j, if_neg]
    intro hcon
    exact hrange hcon.2

/-- Claim C2, witness: the band-entry theorem applied at the concrete
parameters p2W, row 0, column 0. -/
theorem c2_witness :
    (0 : ℕ) < p2W.Nlocal ∧
    ((0 - p2W.mu ≤ 0 ∧ 0 ≤ min (0 + p2W.ml) (p2W.Nlocal - 1) →
        (KBBDDQJac p2W (fun _ _ => 0)).J 0 0 =
          (p2W.glocF (perturbGroup p2W p2W.u (0 % width p2W + 1)) 0 -
              p2W.glocF p2W.u 0) / inc p2W 0) ∧
      (¬ (0 - p2W.mu ≤ 0 ∧ 0 ≤ min (0 + p2W.ml) (p2W.Nlocal - 1)) →
        (KBBDDQJac p2W (fun _ _ => 0)).J 0 0 = (fun _ _ => (0 : ℚ)) 0 0) ∧
      inc p2W 0 = p2W.rel_uu * max |p2W.u 0| (1 / p2W.usc 0)) :=
  ⟨by decide, c2_band_entries p2W (fun _ _ => 0) 0 0 (by decide)⟩

/-- Claim C9: the rebuild restores the perturbation work vector - after
KBBDDQJac the utemp state equals the iterate uu at every index - and a
KBBDPrecon call leaves every configuration field of the driver state
(bandwidths, local function, relative increment, local size) unchanged;
only PP, pivots and nge are assigned. -/
theorem c9_frame (pd : KBBDData) (uu uscale : Vec) (J0 : Mat) (j : ℕ) :
    (KBBDDQJac (dqParamsOf pd uu uscale) J0).utemp j = uu j ∧
    (KBBDPrecon pd uu uscale).1.mu = pd.mu ∧
    (KBBDPrecon pd uu uscale).1.ml = pd.ml ∧
    (KBBDPrecon pd uu uscale).1.glocF = pd.glocF ∧
    (KBBDPrecon pd uu uscale).1.rel_uu = pd.rel_uu ∧
    (KBBDPrecon pd uu uscale).1.n_local = pd.n_local := by
  refine ⟨?_, rfl, rfl, rfl, rfl, rfl⟩
  rw [(KBBDDQJac_spec (dqParamsOf pd uu uscale) J0).1]
  rfl

/-- Claim C6: KBBDPrecon returns 0 exactly when the band LU factorization
completes and returns the positive (recoverable) code 1 when the
factorization is singular; and the relative increment input is resolved
once at allocation time - to itself when positive, to sqrt(unit roundoff)
otherwise - and a precondition call never changes the stored resolved
value, so every rebuild uses it. -/
theorem c6_return_codes (pd : KBBDData) (uu uscale : Vec)
    (Nl mu0 ml0 : ℤ) (dq : ℚ) (env : AllocEnv) :
    ((KBBDPrecon pd uu uscale).2 = 0 ↔
      (bandFactor pd.n_local pd.mu pd.ml
        (KBBDDQJac (dqParamsOf pd uu uscale) (BandZero pd.PP)).J).code = 0) ∧
    (KBBDPrecon pd uu uscale).2 =
      (if 0 < (bandFactor pd.n_local pd.mu pd.ml
          (KBBDDQJac (dqParamsOf pd uu uscale) (BandZero pd.PP)).J).code
        then 1 else 0) ∧
    (KBBDAlloc Nl mu0 ml0 dq env).map (fun r => r.rel_uu) =
      (KBBDAlloc Nl mu0 ml0 dq env).map
        (fun _ => if 0 < dq then dq else env.uroundSqrt) ∧
    (KBBDPrecon pd uu uscale).1.rel_uu = pd.rel_uu := by
  refine ⟨?_, rfl, ?_, rfl⟩
  · show (if 0 < (bandFactor pd.n_local pd.mu pd.ml
        (KBBDDQJac (dqParamsOf pd uu uscale) (BandZero pd.PP)).J).code
        then (1 : ℤ) else 0) = 0 ↔ _
    generalize (bandFactor pd.n_local pd.mu pd.ml
      (KBBDDQJac (dqParamsOf pd uu uscale) (BandZero pd.PP)).J).code = k
    rcases Nat.eq_zero_or_pos k with hk | hk
    · subst hk
      simp
    · rw [if_pos hk]
      constructor
      · intro h1
        exact absurd h1 one_ne_zero
      · intro h0
        omega
  · obtain ⟨ka, n, pda, pp, pv, v3, u⟩ := env
    cases ka <;> cases n <;> cases pda <;> cases pp <;> cases v3 <;>
      simp [KBBDAlloc]

/-- Claim C7: two KBBDPrecon calls on driver states that agree on every
configuration field (bandwidths, local function, relative increment,
local size) but may hold arbitrary prior matrix contents, pivots and
counters, given identical iterate and scaling vectors, produce identical
banded matrices, identical pivot sequences, and identical return codes:
the BandZero at the start of the rebuild makes the result independent of
the prior matrix contents, and the rebuild is a pure function of its
inputs. -/
theorem c7_determinism (pd1 pd2 : KBBDData) (uu uscale : Vec)
    (hmu : pd1.mu = pd2.mu) (hml : pd1.ml = pd2.ml)
    (hg : pd1.glocF = pd2.glocF) (hr : pd1.rel_uu = pd2.rel_uu)
    (hn : pd1.n_local = pd2.n_local) :
    (KBBDPrecon pd1 uu uscale).1.PP = (KBBDPrecon pd2 uu uscale).1.PP ∧
    (KBBDPrecon pd1 uu uscale).1.pivots =
      (KBBDPrecon pd2 uu uscale).1.pivots ∧
    (KBBDPrecon pd1 uu uscale).2 = (KBBDPrecon pd2 uu uscale).2 := by
  have hdq : dqParamsOf pd1 uu uscale = dqParamsOf pd2 uu uscale := by
    unfold dqParamsOf
    rw [hmu, hml, hg, hr, hn]
  refine ⟨?_, ?_, ?_⟩
  · show (bandFactor pd1.n_local pd1.mu pd1.ml
      (KBBDDQJac (dqParamsOf pd1 uu uscale) (BandZero pd1.PP)).J).lu = _
    rw [hdq, hmu, hml, hn]
    rfl
  · show (bandFactor pd1.n_local pd1.mu pd1.ml
      (KBBDDQJac (dqParamsOf pd1 uu uscale) (BandZero pd1.PP)).J).piv = _
    rw [hdq, hmu, hml, hn]
    rfl
  · show (if 0 < (bandFactor pd1.n_local pd1.mu pd1.ml
        (KBBDDQJac (dqParamsOf pd1 uu uscale) (BandZero pd1.PP)).J).code
        then (1 : ℤ) else 0) = _
    rw [hdq, hmu, hml, hn]
    rfl

/-- Claim C7, witness: the determinism theorem applied to pdFour and
pdFourDirty, which differ exactly in matrix contents, pivots and
counter. -/
theorem c7_witness :
    pdFour.mu = pdFourDirty.mu ∧ pdFour.ml = pdFourDirty.ml ∧
    pdFour.glocF = pdFourDirty.glocF ∧
    pdFour.rel_uu = pdFourDirty.rel_uu ∧
    pdFour.n_local = pdFourDirty.n_local ∧
    ((KBBDPrecon pdFour (fun _ => 1) (fun _ => 1)).1.PP =
        (KBBDPrecon pdFourDirty (fun _ => 1) (fun _ => 1)).1.PP ∧
      (KBBDPrecon pdFour (fun _ => 1) (fun _ => 1)).1.pivots =
        (KBBDPrecon pdFourDirty (fun _ => 1) (fun _ => 1)).1.pivots ∧
      (KBBDPrecon pdFour (fun _ => 1) (fun _ => 1)).2 =
        (KBBDPrecon pdFourDirty (fun _ => 1) (fun _ => 1)).2) :=
  ⟨rfl, rfl, rfl, rfl, rfl,
    c7_determinism pdFour pdFourDirty (fun _ => 1) (fun _ => 1)
      rfl rfl rfl rfl rfl⟩

end KinBBD
